import Mathlib

/-!
Verification of the push reconciliation logic of buf-push-action.

The definitions below are a shallow embedding of the Go sources under
`internal/bufpushaction` (push.go, deletetrack.go, bufpushaction.go) and
`internal/pkg/github` (github.go).  Each collaborator (module reader,
registry, commit comparator) is represented by a scripted response held in
a world structure; the reconciliation functions thread an explicit list of
observable effects (service calls, notices, outputs) so that properties
such as "no push call is made" are statements about the returned trace.
-/

namespace BufPushAction

/-- Decidable equality for scripted `Except` responses, used to evaluate
the witnesses below. -/
instance {e a : Type} [DecidableEq e] [DecidableEq a] : DecidableEq (Except e a) := fun x y =>
  match x, y with
  | .error u, .error v =>
    if h : u = v then .isTrue (congrArg Except.error h)
    else .isFalse (fun hh => h (Except.error.inj hh))
  | .error _, .ok _ => .isFalse (fun hh => Except.noConfusion hh)
  | .ok _, .error _ => .isFalse (fun hh => Except.noConfusion hh)
  | .ok u, .ok v =>
    if h : u = v then .isTrue (congrArg Except.ok h)
    else .isFalse (fun hh => h (Except.ok.inj hh))

/-- A module identity, the `remote/owner/repository` triple returned by the
module reader (`bufcli.ReadModuleWithWorkspacesDisabled`). -/
structure ModuleIdentity where
  remote : String
  owner : String
  repository : String
deriving DecidableEq

/-- The identity string of a module: `remote/owner/repository`. -/
def identityString (m : ModuleIdentity) : String :=
  m.remote ++ "/" ++ m.owner ++ "/" ++ m.repository

/-- Error codes distinguished by `rpc.GetErrorCode`.  `unknown` stands for
every code the reconciliation code does not branch on (including non-rpc
errors, for which `rpc.GetErrorCode` returns the unknown code). -/
inductive RpcCode where
  | notFound
  | alreadyExists
  | failedPrecondition
  | unknown
deriving DecidableEq

/-- An error returned by a registry call: its rpc code plus its message. -/
structure RpcError where
  code : RpcCode
  msg : String
deriving DecidableEq

/-- A commit at the head of a track, as returned by
`RepositoryCommitService.GetRepositoryCommitByReference`: its registry
commit name and the names of its tags. -/
structure RepositoryCommit where
  name : String
  tags : List String
deriving DecidableEq

/-- The module pin returned by a successful `PushService.Push`. -/
structure LocalModulePin where
  commit : String
deriving DecidableEq

/-- The repository record returned by
`RepositoryService.GetRepositoryByFullName`. -/
structure Repository where
  id : String
deriving DecidableEq

/-- Errors from the github commit-comparison client.  `notFound` is the case
recognized by `github.IsNotFoundError` (HTTP 404); everything else is
`other`. -/
inductive GithubError where
  | notFound
  | other (msg : String)
deriving DecidableEq

/-! `github.CompareCommitsStatus` is an integer enumeration
(`iota + 1` in github.go); values outside the four named constants are
possible (the zero value, for instance) and hit the `default` branch of the
status switch in push.go. -/

def compareCommitsStatusDiverged : Nat := 1
def compareCommitsStatusIdentical : Nat := 2
def compareCommitsStatusAhead : Nat := 3
def compareCommitsStatusBehind : Nat := 4

/-- The String method of `CompareCommitsStatus` from github.go. -/
def statusString (s : Nat) : String :=
  if s = compareCommitsStatusDiverged then "diverged"
  else if s = compareCommitsStatusIdentical then "identical"
  else if s = compareCommitsStatusAhead then "ahead"
  else if s = compareCommitsStatusBehind then "behind"
  else "unknown(" ++ toString s ++ ")"

/-- Modelled from the spec: the constant `githubRefTypeBranch` compared
against the `GITHUB_REF_TYPE` environment variable is not among the given
source files (only its uses in push.go:36 and deletetrack.go:33 are); the
bash implementation (`push.bash`) makes the value explicit:
`if [ "${GITHUB_REF_TYPE}" != "branch" ]`. -/
def githubRefTypeBranch : String := "branch"

/-- resolveTrack, the free function used by push.go and deletetrack.go:
returns "main" when the requested track equals the default branch and
either equals the ref name or the ref name is empty; otherwise returns the
track unchanged. -/
def resolveTrack (track defaultBranch refName : String) : String :=
  if track = defaultBranch ∧ (track = refName ∨ refName = "") then "main"
  else track

/-- A hex digit as accepted by Go's `encoding/hex.DecodeString`
(`fromHexChar`): `0`-`9`, `a`-`f`, and also the uppercase `A`-`F`. -/
def goHexDigit (c : Char) : Bool :=
  ('0' ≤ c && c ≤ '9') || ('a' ≤ c && c ≤ 'f') || ('A' ≤ c && c ≤ 'F')

/-- The candidate filter of push.go lines 96-103: a tag participates in the
comparison loop iff its length is 40 and `hex.DecodeString` succeeds on it,
i.e. all its characters are Go hex digits. -/
def isCandidateTag (tag : String) : Bool :=
  tag.length = 40 && tag.data.all goHexDigit

/-- The tag list built from the head's tags (push.go lines 93-105). -/
def filterCandidates (tags : List String) : List String :=
  tags.filter isCandidateTag

/-- Stated from the spec's words, for comparison with `isCandidateTag`:
the regular expression `[0-9a-f]{40}` anchored on both sides — exactly 40
characters, each a digit or a lowercase hex letter. -/
def specLowerHex40 (tag : String) : Bool :=
  tag.length = 40 && tag.data.all (fun c => ('0' ≤ c && c ≤ '9') || ('a' ≤ c && c ≤ 'f'))

/-- The observable actions of one invocation: calls to the collaborators and
writes to the GitHub Actions output channel, in program order. -/
inductive Effect where
  | readModule
  | getRepositoryCommitByReference (owner repository reference : String)
  | compareCommits (base head : String)
  | pushCall (owner repository : String) (tags tracks : List String)
  | getRepositoryByFullName (fullName : String)
  | createRepositoryTag (repositoryId tagName reference : String)
  | deleteRepositoryTrackByName (owner repository track : String)
  | notice (msg : String)
  | setOutput (name value : String)
deriving DecidableEq

/-- Go's `%q` verb: the argument surrounded by double quotes (escaping is
irrelevant for the strings compared here). -/
def quoted (s : String) : String := "\x22" ++ s ++ "\x22"

/-- The skip notice emitted when `GITHUB_REF_TYPE` is not "branch"
(push.go lines 37-41, deletetrack.go lines 34-38). -/
def refTypeSkipNotice (eventName refType : String) : String :=
  "Skipping because " ++ quoted eventName ++ " events are not supported with "
    ++ quoted refType ++ " references"

/-- Scripted responses of every collaborator consumed by push.go, plus the
environment values it reads.  `refType`, `refName`, `sha`, `githubToken` and
`githubRepository` mirror `GITHUB_REF_TYPE`, `GITHUB_REF_NAME`, `GITHUB_SHA`,
the github token input and `GITHUB_REPOSITORY`; `track`, `defaultBranch` and
`input` mirror the action inputs. -/
structure PushWorld where
  refType : String
  eventName : String
  input : String
  readModule : Except String ModuleIdentity
  protoModule : Except String Unit
  track : String
  defaultBranch : String
  refName : String
  newRepositoryCommitService : Except String Unit
  getRepositoryCommitByReference : Except RpcError RepositoryCommit
  githubToken : String
  githubRepository : String
  newGithubClient : Except String Unit
  sha : String
  compareCommits : String → String → Except GithubError Nat
  newPushService : Except String Unit
  pushResponse : Except RpcError LocalModulePin
  newRepositoryService : Except String Unit
  getRepositoryByFullName : Except RpcError Repository
  newRepositoryTagService : Except String Unit
  createRepositoryTag : Except RpcError Unit

/-- getGithubClient from push.go lines 222-245: validates the github token,
the `GITHUB_REPOSITORY` value and its owner/repo shape, then builds the
client.  Go checks `len(strings.Split(githubRepository, "/")) != 2`, which
for the single-character separator holds exactly when the string does not
contain exactly one slash. -/
def getGithubClient (w : PushWorld) : Except String Unit :=
  if w.githubToken = "" then .error "a github authentication token was not provided"
  else if w.githubRepository = "" then .error "a github repository was not provided"
  else if (w.githubRepository.data.filter (fun c => c = '/')).length ≠ 1 then
    .error "a github repository was not provided in the format owner/repo"
  else w.newGithubClient

/-- The two `setOutput` writes of push.go lines 176-181. -/
def outputEffects (mi : ModuleIdentity) (commitName : String) : List Effect :=
  [.setOutput "commit" commitName,
   .setOutput "commit_url" ("https://" ++ identityString mi ++ "/tree/" ++ commitName)]

/-- tagExistingCommit from push.go lines 186-219: look up the repository by
full name (mapping NotFound to a user-facing error), then create a tag named
`tagName` on the commit `reference` (mapping NotFound and AlreadyExists to
user-facing errors). -/
def tagExistingCommit (w : PushWorld) (mi : ModuleIdentity) (tagName reference : String) :
    List Effect × Except String Unit :=
  match w.newRepositoryService with
  | .error e => ([], .error e)
  | .ok _ =>
    let fullName := mi.owner ++ "/" ++ mi.repository
    match w.getRepositoryByFullName with
    | .error e =>
      if e.code = RpcCode.notFound then
        ([.getRepositoryByFullName fullName],
         .error ("a repository named " ++ quoted (identityString mi) ++ " does not exist"))
      else ([.getRepositoryByFullName fullName], .error e.msg)
    | .ok repo =>
      match w.newRepositoryTagService with
      | .error e => ([.getRepositoryByFullName fullName], .error e)
      | .ok _ =>
        match w.createRepositoryTag with
        | .error e =>
          if e.code = RpcCode.notFound then
            ([.getRepositoryByFullName fullName,
              .createRepositoryTag repo.id tagName reference],
             .error (identityString mi ++ ":" ++ reference ++ " does not exist"))
          else if e.code = RpcCode.alreadyExists then
            ([.getRepositoryByFullName fullName,
              .createRepositoryTag repo.id tagName reference],
             .error (identityString mi ++ ":" ++ tagName ++ " already exists with different content"))
          else
            ([.getRepositoryByFullName fullName,
              .createRepositoryTag repo.id tagName reference],
             .error e.msg)
        | .ok _ =>
          ([.getRepositoryByFullName fullName,
            .createRepositoryTag repo.id tagName reference],
           .ok ())

/-- How the candidate loop of push.go ends: fall through to the push call,
return success early (Identical or Behind), or return an error. -/
inductive LoopOutcome where
  | proceed
  | skipped
  | failed (msg : String)
deriving DecidableEq

/-- The candidate comparison loop of push.go lines 115-146: for each tag,
compare it (as base) with the current git commit; a NotFound comparison
error skips the candidate, any other error aborts; Identical and Behind
emit a notice and end the run successfully, Diverged emits a notice and
continues, Ahead continues, and any other status aborts. -/
def compareLoop (w : PushWorld) (track : String) : List String → List Effect × LoopOutcome
  | [] => ([], .proceed)
  | tag :: rest =>
    match w.compareCommits tag w.sha with
    | .error .notFound =>
      let r := compareLoop w track rest
      (.compareCommits tag w.sha :: r.1, r.2)
    | .error (.other msg) => ([.compareCommits tag w.sha], .failed msg)
    | .ok status =>
      if status = compareCommitsStatusIdentical then
        ([.compareCommits tag w.sha,
          .notice ("Skipping because the current git commit is already the head of track " ++ track)],
         .skipped)
      else if status = compareCommitsStatusBehind then
        ([.compareCommits tag w.sha,
          .notice ("Skipping because the current git commit is behind the head of track " ++ track)],
         .skipped)
      else if status = compareCommitsStatusDiverged then
        let r := compareLoop w track rest
        (.compareCommits tag w.sha
           :: .notice ("The current git commit is diverged from the head of track " ++ track)
           :: r.1,
         r.2)
      else if status = compareCommitsStatusAhead then
        let r := compareLoop w track rest
        (.compareCommits tag w.sha :: r.1, r.2)
      else ([.compareCommits tag w.sha], .failed ("unexpected status: " ++ statusString status))

/-- The push call and its error handling, push.go lines 147-183: on success
report the new pin's commit; on AlreadyExists with a known head, tag that
head's commit with the current git commit and report the head's commit; on
AlreadyExists with no head, or any other error, propagate. -/
def runPushService (w : PushWorld) (mi : ModuleIdentity) (head : Option RepositoryCommit)
    (track : String) : List Effect × Except String Unit :=
  match w.newPushService with
  | .error e => ([], .error e)
  | .ok _ =>
    let pushEff := Effect.pushCall mi.owner mi.repository [w.sha] [track]
    match w.pushResponse with
    | .ok pin => (pushEff :: outputEffects mi pin.commit, .ok ())
    | .error e =>
      if e.code ≠ RpcCode.alreadyExists then ([pushEff], .error e.msg)
      else
        match head with
        | none => ([pushEff], .error e.msg)
        | some rc =>
          let t := tagExistingCommit w mi w.sha rc.name
          match t.2 with
          | .error m => (pushEff :: t.1, .error m)
          | .ok _ => (pushEff :: (t.1 ++ outputEffects mi rc.name), .ok ())

/-- The candidate tags of an optional track head: push.go leaves `tags` nil
when the head fetch returned NotFound and filters the head tags otherwise
(lines 93-105). -/
def candidatesOf (head : Option RepositoryCommit) : List String :=
  match head with
  | none => []
  | some rc => filterCandidates rc.tags

/-- The tail of push.go after the track head has been fetched (lines
93-183): filter the head's tags to candidates, build the github client,
check the current git commit, run the comparison loop and, unless it
short-circuited, the push call. -/
def afterHead (w : PushWorld) (mi : ModuleIdentity) (head : Option RepositoryCommit)
    (track : String) (pre : List Effect) : List Effect × Except String Unit :=
  let candidates := candidatesOf head
  match getGithubClient w with
  | .error e => (pre, .error e)
  | .ok _ =>
    if w.sha = "" then (pre, .error "current git commit not found in environment")
    else
      let l := compareLoop w track candidates
      match l.2 with
      | .skipped => (pre ++ l.1, .ok ())
      | .failed m => (pre ++ l.1, .error m)
      | .proceed =>
        let p := runPushService w mi head track
        (pre ++ l.1 ++ p.1, p.2)

/-- push from push.go lines 34-184: the `GITHUB_REF_TYPE` gate, module read,
track and default-branch validation, the cross-branch main guard, track
resolution, the track head fetch (absorbing only a NotFound error), and the
rest of the reconciliation via `afterHead`. -/
def push (w : PushWorld) : List Effect × Except String Unit :=
  if w.refType ≠ githubRefTypeBranch then
    ([.notice (refTypeSkipNotice w.eventName w.refType)], .ok ())
  else
    match w.readModule with
    | .error e => ([.readModule], .error e)
    | .ok mi =>
      match w.protoModule with
      | .error e => ([.readModule], .error e)
      | .ok _ =>
        if w.track = "" then ([.readModule], .error "track not provided")
        else if w.defaultBranch = "" then ([.readModule], .error "default_branch not provided")
        else if w.defaultBranch ≠ "main" ∧ w.track = "main" ∧ w.track = w.refName then
          ([.readModule], .error "cannot push to main track from a non-default branch")
        else
          let track := resolveTrack w.track w.defaultBranch w.refName
          match w.newRepositoryCommitService with
          | .error e => ([.readModule], .error e)
          | .ok _ =>
            let headEff := Effect.getRepositoryCommitByReference mi.owner mi.repository track
            match w.getRepositoryCommitByReference with
            | .error e =>
              if e.code ≠ RpcCode.notFound then ([.readModule, headEff], .error e.msg)
              else afterHead w mi none track [.readModule, headEff]
            | .ok rc => afterHead w mi (some rc) track [.readModule, headEff]

/-- Scripted responses and environment values consumed by deletetrack.go. -/
structure DeleteWorld where
  refType : String
  eventName : String
  input : String
  newReadWriteBucket : Except String Unit
  getConfigForBucket : Except String (Option ModuleIdentity)
  moduleReferenceForString : Except String Unit
  track : String
  defaultBranch : String
  refName : String
  newRepositoryTrackService : Except String Unit
  deleteRepositoryTrackByName : Except RpcError Unit

/-- deleteTrack from deletetrack.go lines 31-83: the `GITHUB_REF_TYPE` gate,
config reading, track and default-branch validation, track resolution, the
main-track no-op, and the delete-by-name call with its NotFound mapping.
The message of `bufcli.NewModuleReferenceNotFoundError` is modelled from the
spec as a user-facing "does not exist" error naming the module reference
(that constructor's body is not among the given sources). -/
def deleteTrack (w : DeleteWorld) : List Effect × Except String Unit :=
  if w.refType ≠ githubRefTypeBranch then
    ([.notice (refTypeSkipNotice w.eventName w.refType)], .ok ())
  else
    match w.newReadWriteBucket with
    | .error e => ([], .error e)
    | .ok _ =>
      match w.getConfigForBucket with
      | .error e => ([], .error e)
      | .ok none => ([], .error "module identity not found in config")
      | .ok (some mi) =>
        match w.moduleReferenceForString with
        | .error e => ([], .error e)
        | .ok _ =>
          if w.track = "" then ([], .error "track not provided")
          else if w.defaultBranch = "" then ([], .error "default_branch not provided")
          else
            let track := resolveTrack w.track w.defaultBranch w.refName
            if track = "main" then
              ([.notice "Skipping because the main track can not be deleted from BSR"], .ok ())
            else
              match w.newRepositoryTrackService with
              | .error e => ([], .error e)
              | .ok _ =>
                let delEff := Effect.deleteRepositoryTrackByName mi.owner mi.repository track
                match w.deleteRepositoryTrackByName with
                | .error e =>
                  if e.code = RpcCode.notFound then
                    ([delEff], .error (identityString mi ++ " does not exist"))
                  else ([delEff], .error e.msg)
                | .ok _ => ([delEff], .ok ())

/-- The track head error handling of the other version of push in this
repository, bufpushaction.go lines 579-593: a NotFound error (track not
created yet) and a FailedPrecondition error (track exists but empty) both
continue with no head; every other error propagates. -/
def handleGetRepositoryCommitError (e : RpcError) : Except String Unit :=
  match e.code with
  | RpcCode.notFound => .ok ()
  | RpcCode.failedPrecondition => .ok ()
  | _ => .error e.msg

/-! Helper lemmas: equations exposing how `push` unfolds once the scripted
responses are fixed. -/

lemma push_reach_ok (w : PushWorld) (mi : ModuleIdentity) (rc : RepositoryCommit)
    (h1 : w.refType = githubRefTypeBranch)
    (h2 : w.readModule = .ok mi)
    (h3 : w.protoModule = .ok ())
    (h4 : w.track ≠ "")
    (h5 : w.defaultBranch ≠ "")
    (h6 : ¬(w.defaultBranch ≠ "main" ∧ w.track = "main" ∧ w.track = w.refName))
    (h7 : w.newRepositoryCommitService = .ok ())
    (h8 : w.getRepositoryCommitByReference = .ok rc) :
    push w = afterHead w mi (some rc) (resolveTrack w.track w.defaultBranch w.refName)
      [.readModule, .getRepositoryCommitByReference mi.owner mi.repository
        (resolveTrack w.track w.defaultBranch w.refName)] := by
  unfold push
  rw [if_neg (by rw [h1]; simp), h2, h3]
  simp only
  rw [if_neg h4, if_neg h5, if_neg h6, h7]
  simp only
  rw [h8]

lemma push_reach_noHead (w : PushWorld) (mi : ModuleIdentity) (e : RpcError)
    (h1 : w.refType = githubRefTypeBranch)
    (h2 : w.readModule = .ok mi)
    (h3 : w.protoModule = .ok ())
    (h4 : w.track ≠ "")
    (h5 : w.defaultBranch ≠ "")
    (h6 : ¬(w.defaultBranch ≠ "main" ∧ w.track = "main" ∧ w.track = w.refName))
    (h7 : w.newRepositoryCommitService = .ok ())
    (h8 : w.getRepositoryCommitByReference = .error e)
    (h9 : e.code = RpcCode.notFound) :
    push w = afterHead w mi none (resolveTrack w.track w.defaultBranch w.refName)
      [.readModule, .getRepositoryCommitByReference mi.owner mi.repository
        (resolveTrack w.track w.defaultBranch w.refName)] := by
  unfold push
  rw [if_neg (by rw [h1]; simp), h2, h3]
  simp only
  rw [if_neg h4, if_neg h5, if_neg h6, h7]
  simp only
  rw [h8]
  simp only
  rw [if_neg (by rw [h9]; simp)]

lemma push_reach_headErr (w : PushWorld) (mi : ModuleIdentity) (e : RpcError)
    (h1 : w.refType = githubRefTypeBranch)
    (h2 : w.readModule = .ok mi)
    (h3 : w.protoModule = .ok ())
    (h4 : w.track ≠ "")
    (h5 : w.defaultBranch ≠ "")
    (h6 : ¬(w.defaultBranch ≠ "main" ∧ w.track = "main" ∧ w.track = w.refName))
    (h7 : w.newRepositoryCommitService = .ok ())
    (h8 : w.getRepositoryCommitByReference = .error e)
    (h9 : e.code ≠ RpcCode.notFound) :
    push w = ([.readModule, .getRepositoryCommitByReference mi.owner mi.repository
        (resolveTrack w.track w.defaultBranch w.refName)], .error e.msg) := by
  unfold push
  rw [if_neg (by rw [h1]; simp), h2, h3]
  simp only
  rw [if_neg h4, if_neg h5, if_neg h6, h7]
  simp only
  rw [h8]
  simp only
  rw [if_pos h9]

lemma afterHead_eq (w : PushWorld) (mi : ModuleIdentity) (head : Option RepositoryCommit)
    (track : String) (pre : List Effect)
    (hg : getGithubClient w = .ok ())
    (hsha : w.sha ≠ "") :
    afterHead w mi head track pre =
      (match (compareLoop w track (candidatesOf head)).2 with
       | .skipped => (pre ++ (compareLoop w track (candidatesOf head)).1, .ok ())
       | .failed m => (pre ++ (compareLoop w track (candidatesOf head)).1, .error m)
       | .proceed =>
         (pre ++ (compareLoop w track (candidatesOf head)).1
            ++ (runPushService w mi head track).1,
          (runPushService w mi head track).2)) := by
  unfold afterHead
  rw [hg]
  simp only
  rw [if_neg hsha]

lemma compareLoop_nil (w : PushWorld) (track : String) :
    compareLoop w track [] = ([], .proceed) := rfl

lemma compareLoop_cons_identical (w : PushWorld) (track t : String) (rest : List String)
    (h : w.compareCommits t w.sha = .ok compareCommitsStatusIdentical) :
    compareLoop w track (t :: rest) =
      ([.compareCommits t w.sha,
        .notice ("Skipping because the current git commit is already the head of track " ++ track)],
       .skipped) := by
  unfold compareLoop
  rw [h]
  rfl

lemma compareLoop_cons_behind (w : PushWorld) (track t : String) (rest : List String)
    (h : w.compareCommits t w.sha = .ok compareCommitsStatusBehind) :
    compareLoop w track (t :: rest) =
      ([.compareCommits t w.sha,
        .notice ("Skipping because the current git commit is behind the head of track " ++ track)],
       .skipped) := by
  unfold compareLoop
  rw [h]
  rfl

lemma compareLoop_cons_diverged (w : PushWorld) (track t : String) (rest : List String)
    (h : w.compareCommits t w.sha = .ok compareCommitsStatusDiverged) :
    compareLoop w track (t :: rest) =
      (.compareCommits t w.sha
         :: .notice ("The current git commit is diverged from the head of track " ++ track)
         :: (compareLoop w track rest).1,
       (compareLoop w track rest).2) := by
  simp [compareLoop, h, compareCommitsStatusIdentical, compareCommitsStatusBehind,
    compareCommitsStatusDiverged, compareCommitsStatusAhead]

lemma compareLoop_cons_ahead (w : PushWorld) (track t : String) (rest : List String)
    (h : w.compareCommits t w.sha = .ok compareCommitsStatusAhead) :
    compareLoop w track (t :: rest) =
      (.compareCommits t w.sha :: (compareLoop w track rest).1,
       (compareLoop w track rest).2) := by
  simp [compareLoop, h, compareCommitsStatusIdentical, compareCommitsStatusBehind,
    compareCommitsStatusDiverged, compareCommitsStatusAhead]

lemma compareLoop_cons_notFound (w : PushWorld) (track t : String) (rest : List String)
    (h : w.compareCommits t w.sha = .error .notFound) :
    compareLoop w track (t :: rest) =
      (.compareCommits t w.sha :: (compareLoop w track rest).1,
       (compareLoop w track rest).2) := by
  simp [compareLoop, h, compareCommitsStatusIdentical, compareCommitsStatusBehind,
    compareCommitsStatusDiverged, compareCommitsStatusAhead]

lemma compareLoop_cons_otherErr (w : PushWorld) (track t : String) (rest : List String)
    (msg : String) (h : w.compareCommits t w.sha = .error (.other msg)) :
    compareLoop w track (t :: rest) = ([.compareCommits t w.sha], .failed msg) := by
  unfold compareLoop
  rw [h]

lemma compareLoop_cons_unknown (w : PushWorld) (track t : String) (rest : List String)
    (s : Nat) (h : w.compareCommits t w.sha = .ok s)
    (hs1 : s ≠ compareCommitsStatusIdentical)
    (hs2 : s ≠ compareCommitsStatusBehind)
    (hs3 : s ≠ compareCommitsStatusDiverged)
    (hs4 : s ≠ compareCommitsStatusAhead) :
    compareLoop w track (t :: rest) =
      ([.compareCommits t w.sha], .failed ("unexpected status: " ++ statusString s)) := by
  unfold compareLoop
  rw [h]
  simp only [hs1, hs2, hs3, hs4, if_false, ite_false]

lemma tagExistingCommit_ok (w : PushWorld) (mi : ModuleIdentity) (tagName reference : String)
    (repo : Repository)
    (h1 : w.newRepositoryService = .ok ())
    (h2 : w.getRepositoryByFullName = .ok repo)
    (h3 : w.newRepositoryTagService = .ok ())
    (h4 : w.createRepositoryTag = .ok ()) :
    tagExistingCommit w mi tagName reference =
      ([.getRepositoryByFullName (mi.owner ++ "/" ++ mi.repository),
        .createRepositoryTag repo.id tagName reference], .ok ()) := by
  unfold tagExistingCommit
  rw [h1, h2, h3, h4]

lemma runPushService_ok (w : PushWorld) (mi : ModuleIdentity) (head : Option RepositoryCommit)
    (track : String) (pin : LocalModulePin)
    (h1 : w.newPushService = .ok ())
    (h2 : w.pushResponse = .ok pin) :
    runPushService w mi head track =
      (Effect.pushCall mi.owner mi.repository [w.sha] [track] :: outputEffects mi pin.commit,
       .ok ()) := by
  unfold runPushService
  rw [h1, h2]

lemma runPushService_otherErr (w : PushWorld) (mi : ModuleIdentity)
    (head : Option RepositoryCommit) (track : String) (e : RpcError)
    (h1 : w.newPushService = .ok ())
    (h2 : w.pushResponse = .error e)
    (h3 : e.code ≠ RpcCode.alreadyExists) :
    runPushService w mi head track =
      ([Effect.pushCall mi.owner mi.repository [w.sha] [track]], .error e.msg) := by
  unfold runPushService
  rw [h1, h2]
  simp only
  rw [if_pos h3]

lemma runPushService_alreadyExists_noHead (w : PushWorld) (mi : ModuleIdentity)
    (track : String) (e : RpcError)
    (h1 : w.newPushService = .ok ())
    (h2 : w.pushResponse = .error e)
    (h3 : e.code = RpcCode.alreadyExists) :
    runPushService w mi none track =
      ([Effect.pushCall mi.owner mi.repository [w.sha] [track]], .error e.msg) := by
  unfold runPushService
  rw [h1, h2]
  simp only
  rw [if_neg (by rw [h3]; simp)]

lemma runPushService_alreadyExists_head (w : PushWorld) (mi : ModuleIdentity)
    (rc : RepositoryCommit) (track : String) (e : RpcError)
    (h1 : w.newPushService = .ok ())
    (h2 : w.pushResponse = .error e)
    (h3 : e.code = RpcCode.alreadyExists)
    (h4 : (tagExistingCommit w mi w.sha rc.name).2 = .ok ()) :
    runPushService w mi (some rc) track =
      (Effect.pushCall mi.owner mi.repository [w.sha] [track]
         :: ((tagExistingCommit w mi w.sha rc.name).1 ++ outputEffects mi rc.name),
       .ok ()) := by
  simp [runPushService, h1, h2, h3, h4]

/-- C3: resolveTrack is a total deterministic function on string triples: it
returns the literal "main" when the requested track equals the default
branch and either equals the ref name or the ref name is empty, and returns
the requested track unchanged in every other case. -/
theorem resolveTrack_spec (t d r : String) :
    (t = d ∧ (t = r ∨ r = "") → resolveTrack t d r = "main") ∧
    (t ≠ d ∨ (r ≠ t ∧ r ≠ "") → resolveTrack t d r = t) := by
  constructor
  · intro h
    unfold resolveTrack
    rw [if_pos h]
  · intro h
    unfold resolveTrack
    rw [if_neg]
    rintro ⟨h1, h2⟩
    rcases h with h | ⟨h3, h4⟩
    · exact h h1
    · rcases h2 with h2 | h2
      · exact h3 h2.symm
      · exact h4 h2

/-- Witness for C3: both cases evaluated at concrete strings. -/
theorem resolveTrack_spec_witness :
    resolveTrack "develop" "develop" "" = "main" ∧ resolveTrack "feature" "develop" "main" = "feature" :=
  ⟨(resolveTrack_spec "develop" "develop" "").1 ⟨rfl, Or.inr rfl⟩,
   (resolveTrack_spec "feature" "develop" "main").2 (Or.inl (by decide))⟩

/-- C10: whenever `GITHUB_REF_TYPE` is not "branch", both push and
deleteTrack emit a single skip notice and return success immediately; the
trace contains exactly that notice, hence no module read, no registry call
and no commit comparison takes place. -/
theorem refType_gate (w : PushWorld) (d : DeleteWorld)
    (hw : w.refType ≠ githubRefTypeBranch)
    (hd : d.refType ≠ githubRefTypeBranch) :
    push w = ([.notice (refTypeSkipNotice w.eventName w.refType)], .ok ()) ∧
    deleteTrack d = ([.notice (refTypeSkipNotice d.eventName d.refType)], .ok ()) := by
  constructor
  · unfold push
    rw [if_pos hw]
  · unfold deleteTrack
    rw [if_pos hd]

/-! Concrete fixtures used by witnesses and counterexamples. -/

def mi0 : ModuleIdentity := ⟨"buf.build", "foo", "bar"⟩

def shaA : String := "aaaaaaaaaaaaaaaaaaaaaaaaaaaaaaaaaaaaaaaa"

def tagB : String := "bbbbbbbbbbbbbbbbbbbbbbbbbbbbbbbbbbbbbbbb"

def tagUpper : String := "AAAAAAAAAAAAAAAAAAAAAAAAAAAAAAAAAAAAAAAA"

/-- A happy-path push world: branch ref, readable module, non-main track
request on a main default branch, a head carrying one candidate tag, all
comparisons Ahead, and a successful push. -/
def pw0 : PushWorld where
  refType := "branch"
  eventName := "push"
  input := "."
  readModule := .ok mi0
  protoModule := .ok ()
  track := "non-main"
  defaultBranch := "main"
  refName := "main"
  newRepositoryCommitService := .ok ()
  getRepositoryCommitByReference := .ok ⟨"c0", ["some", tagB]⟩
  githubToken := "github-token"
  githubRepository := "foo/bar"
  newGithubClient := .ok ()
  sha := shaA
  compareCommits := fun _ _ => .ok compareCommitsStatusAhead
  newPushService := .ok ()
  pushResponse := .ok ⟨"c1"⟩
  newRepositoryService := .ok ()
  getRepositoryByFullName := .ok ⟨"repo-id"⟩
  newRepositoryTagService := .ok ()
  createRepositoryTag := .ok ()

/-- A happy-path delete world: branch ref, readable config, a non-main
track that resolves to itself, and a successful delete call. -/
def dw0 : DeleteWorld where
  refType := "branch"
  eventName := "delete"
  input := "."
  newReadWriteBucket := .ok ()
  getConfigForBucket := .ok (some mi0)
  moduleReferenceForString := .ok ()
  track := "non-main"
  defaultBranch := "main"
  refName := "main"
  newRepositoryTrackService := .ok ()
  deleteRepositoryTrackByName := .ok ()

/-- Witness for C10: a tag-ref invocation of push and of deleteTrack each
produce exactly one skip notice and succeed. -/
theorem refType_gate_witness :
    push { pw0 with refType := "tag" } =
      ([.notice (refTypeSkipNotice "push" "tag")], .ok ()) ∧
    deleteTrack { dw0 with refType := "tag" } =
      ([.notice (refTypeSkipNotice "delete" "tag")], .ok ()) :=
  refType_gate { pw0 with refType := "tag" } { dw0 with refType := "tag" }
    (by decide) (by decide)

/-- C9: once deleteTrack has read the module config and validated its
inputs, it resolves the effective track first; a resolved track of "main"
produces only a notice and success with no registry delete call; otherwise
the delete-by-name call is made, a NotFound error is mapped to a
user-facing "does not exist" error, every other error propagates, and
success is silent. -/
theorem deleteTrack_spec (w : DeleteWorld) (mi : ModuleIdentity)
    (h1 : w.refType = githubRefTypeBranch)
    (h2 : w.newReadWriteBucket = .ok ())
    (h3 : w.getConfigForBucket = .ok (some mi))
    (h4 : w.moduleReferenceForString = .ok ())
    (h5 : w.track ≠ "")
    (h6 : w.defaultBranch ≠ "") :
    (resolveTrack w.track w.defaultBranch w.refName = "main" →
      deleteTrack w =
        ([.notice "Skipping because the main track can not be deleted from BSR"], .ok ())) ∧
    (resolveTrack w.track w.defaultBranch w.refName ≠ "main" →
      w.newRepositoryTrackService = .ok () →
      (∀ e : RpcError, w.deleteRepositoryTrackByName = .error e →
        (e.code = RpcCode.notFound →
          deleteTrack w =
            ([.deleteRepositoryTrackByName mi.owner mi.repository
                (resolveTrack w.track w.defaultBranch w.refName)],
             .error (identityString mi ++ " does not exist"))) ∧
        (e.code ≠ RpcCode.notFound →
          deleteTrack w =
            ([.deleteRepositoryTrackByName mi.owner mi.repository
                (resolveTrack w.track w.defaultBranch w.refName)],
             .error e.msg))) ∧
      (w.deleteRepositoryTrackByName = .ok () →
        deleteTrack w =
          ([.deleteRepositoryTrackByName mi.owner mi.repository
              (resolveTrack w.track w.defaultBranch w.refName)],
           .ok ()))) := by
  have base : deleteTrack w =
      (if resolveTrack w.track w.defaultBranch w.refName = "main" then
        ([.notice "Skipping because the main track can not be deleted from BSR"], .ok ())
      else
        match w.newRepositoryTrackService with
        | .error e => ([], .error e)
        | .ok _ =>
          match w.deleteRepositoryTrackByName with
          | .error e =>
            if e.code = RpcCode.notFound then
              ([.deleteRepositoryTrackByName mi.owner mi.repository
                  (resolveTrack w.track w.defaultBranch w.refName)],
               .error (identityString mi ++ " does not exist"))
            else
              ([.deleteRepositoryTrackByName mi.owner mi.repository
                  (resolveTrack w.track w.defaultBranch w.refName)],
               .error e.msg)
          | .ok _ =>
            ([.deleteRepositoryTrackByName mi.owner mi.repository
                (resolveTrack w.track w.defaultBranch w.refName)],
             .ok ())) := by
    unfold deleteTrack
    rw [if_neg (by rw [h1]; simp), h2, h3, h4]
    simp only
    rw [if_neg h5, if_neg h6]
  constructor
  · intro hmain
    rw [base, if_pos hmain]
  · intro hmain hsvc
    rw [base, if_neg hmain, hsvc]
    refine ⟨fun e he => ?_, fun hok => ?_⟩
    · rw [he]
      exact ⟨fun hc => by simp [hc], fun hc => by simp [hc]⟩
    · rw [hok]

/-- Witness for C9: concrete runs of all four cases — the main-track no-op,
the NotFound mapping, propagation of another error, and silent success. -/
theorem deleteTrack_spec_witness :
    deleteTrack { dw0 with track := "main" } =
      ([.notice "Skipping because the main track can not be deleted from BSR"], .ok ()) ∧
    deleteTrack { dw0 with deleteRepositoryTrackByName := .error ⟨RpcCode.notFound, "nf"⟩ } =
      ([.deleteRepositoryTrackByName "foo" "bar" "non-main"],
       .error "buf.build/foo/bar does not exist") ∧
    deleteTrack { dw0 with deleteRepositoryTrackByName := .error ⟨RpcCode.unknown, "boom"⟩ } =
      ([.deleteRepositoryTrackByName "foo" "bar" "non-main"], .error "boom") ∧
    deleteTrack dw0 = ([.deleteRepositoryTrackByName "foo" "bar" "non-main"], .ok ()) := by
  refine ⟨?_, ?_, ?_, ?_⟩
  · exact (deleteTrack_spec { dw0 with track := "main" } mi0 rfl rfl rfl rfl
      (by decide) (by decide)).1 (by decide)
  · exact ((deleteTrack_spec { dw0 with deleteRepositoryTrackByName := .error ⟨RpcCode.notFound, "nf"⟩ }
      mi0 rfl rfl rfl rfl (by decide) (by decide)).2 (by decide) rfl).1 ⟨RpcCode.notFound, "nf"⟩ rfl
      |>.1 rfl
  · exact ((deleteTrack_spec { dw0 with deleteRepositoryTrackByName := .error ⟨RpcCode.unknown, "boom"⟩ }
      mi0 rfl rfl rfl rfl (by decide) (by decide)).2 (by decide) rfl).1 ⟨RpcCode.unknown, "boom"⟩ rfl
      |>.2 (by decide)
  · exact ((deleteTrack_spec dw0 mi0 rfl rfl rfl rfl (by decide) (by decide)).2
      (by decide) rfl).2 rfl

/-- C1: in the candidate comparison loop, an Identical result on the first
remaining candidate emits a skip notice and ends the run successfully with
no push call and no comparison of the later candidates; a Behind result
does the same with its own notice; and a run whose two candidates compare
Diverged and then Ahead emits the diverged notice, keeps going, and
performs exactly one push call. -/
theorem push_shortCircuit (w : PushWorld) (mi : ModuleIdentity) (rc : RepositoryCommit)
    (t1 t2 : String) (rest : List String) (pin : LocalModulePin) (trk : String)
    (h1 : w.refType = githubRefTypeBranch)
    (h2 : w.readModule = .ok mi)
    (h3 : w.protoModule = .ok ())
    (h4 : w.track ≠ "")
    (h5 : w.defaultBranch ≠ "")
    (h6 : ¬(w.defaultBranch ≠ "main" ∧ w.track = "main" ∧ w.track = w.refName))
    (h7 : w.newRepositoryCommitService = .ok ())
    (h8 : w.getRepositoryCommitByReference = .ok rc)
    (h9 : getGithubClient w = .ok ())
    (h10 : w.sha ≠ "")
    (htrk : resolveTrack w.track w.defaultBranch w.refName = trk) :
    (filterCandidates rc.tags = t1 :: rest →
      w.compareCommits t1 w.sha = .ok compareCommitsStatusIdentical →
      push w = ([.readModule, .getRepositoryCommitByReference mi.owner mi.repository trk,
        .compareCommits t1 w.sha,
        .notice ("Skipping because the current git commit is already the head of track " ++ trk)],
        .ok ())) ∧
    (filterCandidates rc.tags = t1 :: rest →
      w.compareCommits t1 w.sha = .ok compareCommitsStatusBehind →
      push w = ([.readModule, .getRepositoryCommitByReference mi.owner mi.repository trk,
        .compareCommits t1 w.sha,
        .notice ("Skipping because the current git commit is behind the head of track " ++ trk)],
        .ok ())) ∧
    (filterCandidates rc.tags = [t1, t2] →
      w.compareCommits t1 w.sha = .ok compareCommitsStatusDiverged →
      w.compareCommits t2 w.sha = .ok compareCommitsStatusAhead →
      w.newPushService = .ok () →
      w.pushResponse = .ok pin →
      push w = ([.readModule, .getRepositoryCommitByReference mi.owner mi.repository trk,
        .compareCommits t1 w.sha,
        .notice ("The current git commit is diverged from the head of track " ++ trk),
        .compareCommits t2 w.sha,
        .pushCall mi.owner mi.repository [w.sha] [trk],
        .setOutput "commit" pin.commit,
        .setOutput "commit_url" ("https://" ++ identityString mi ++ "/tree/" ++ pin.commit)],
        .ok ())) := by
  have hreach := push_reach_ok w mi rc h1 h2 h3 h4 h5 h6 h7 h8
  rw [htrk] at hreach
  have heq := afterHead_eq w mi (some rc) trk
    [.readModule, .getRepositoryCommitByReference mi.owner mi.repository trk] h9 h10
  refine ⟨fun hc hcmp => ?_, fun hc hcmp => ?_, fun hc hcmp1 hcmp2 hps hpr => ?_⟩
  · have hcand : candidatesOf (some rc) = t1 :: rest := hc
    rw [hreach, heq, hcand, compareLoop_cons_identical w trk t1 rest hcmp]
    rfl
  · have hcand : candidatesOf (some rc) = t1 :: rest := hc
    rw [hreach, heq, hcand, compareLoop_cons_behind w trk t1 rest hcmp]
    rfl
  · have hcand : candidatesOf (some rc) = [t1, t2] := hc
    rw [hreach, heq, hcand, compareLoop_cons_diverged w trk t1 [t2] hcmp1,
      compareLoop_cons_ahead w trk t2 [] hcmp2, compareLoop_nil,
      runPushService_ok w mi (some rc) trk pin hps hpr]
    rfl

def tagC : String := "cccccccccccccccccccccccccccccccccccccccc"

def pwIdentical : PushWorld :=
  { pw0 with compareCommits := fun b _ =>
      if b = tagB then .ok compareCommitsStatusIdentical else .ok compareCommitsStatusAhead }

def pwBehind : PushWorld :=
  { pw0 with compareCommits := fun b _ =>
      if b = tagB then .ok compareCommitsStatusBehind else .ok compareCommitsStatusAhead }

def pwDivergedAhead : PushWorld :=
  { pw0 with
      getRepositoryCommitByReference := .ok ⟨"c0", [tagB, tagC]⟩,
      compareCommits := fun b _ =>
        if b = tagB then .ok compareCommitsStatusDiverged else .ok compareCommitsStatusAhead }

def pwCmpNotFound : PushWorld :=
  { pw0 with compareCommits := fun b _ =>
      if b = tagB then .error .notFound else .ok compareCommitsStatusAhead }

def pwCmpBoom : PushWorld :=
  { pw0 with compareCommits := fun _ _ => .error (.other "boom") }

def pwCmpUnknown : PushWorld :=
  { pw0 with compareCommits := fun _ _ => .ok 0 }

/-- Witness for C1: concrete runs of the Identical short-circuit, the
Behind short-circuit, and the Diverged-then-Ahead push. -/
theorem push_shortCircuit_witness :
    push pwIdentical =
      ([.readModule, .getRepositoryCommitByReference "foo" "bar" "non-main",
        .compareCommits tagB shaA,
        .notice "Skipping because the current git commit is already the head of track non-main"],
       .ok ()) ∧
    push pwBehind =
      ([.readModule, .getRepositoryCommitByReference "foo" "bar" "non-main",
        .compareCommits tagB shaA,
        .notice "Skipping because the current git commit is behind the head of track non-main"],
       .ok ()) ∧
    push pwDivergedAhead =
      ([.readModule, .getRepositoryCommitByReference "foo" "bar" "non-main",
        .compareCommits tagB shaA,
        .notice "The current git commit is diverged from the head of track non-main",
        .compareCommits tagC shaA,
        .pushCall "foo" "bar" [shaA] ["non-main"],
        .setOutput "commit" "c1",
        .setOutput "commit_url" "https://buf.build/foo/bar/tree/c1"],
       .ok ()) := by
  refine ⟨?_, ?_, ?_⟩
  · exact (push_shortCircuit pwIdentical mi0 ⟨"c0", ["some", tagB]⟩ tagB tagC [] ⟨"c1"⟩ "non-main"
      (by decide) (by decide) (by decide) (by decide) (by decide) (by decide) (by decide)
      (by decide) (by decide) (by decide) (by decide)).1
      (by decide) (by decide)
  · exact (push_shortCircuit pwBehind mi0 ⟨"c0", ["some", tagB]⟩ tagB tagC [] ⟨"c1"⟩ "non-main"
      (by decide) (by decide) (by decide) (by decide) (by decide) (by decide) (by decide)
      (by decide) (by decide) (by decide) (by decide)).2.1
      (by decide) (by decide)
  · exact (push_shortCircuit pwDivergedAhead mi0 ⟨"c0", [tagB, tagC]⟩ tagB tagC [] ⟨"c1"⟩ "non-main"
      (by decide) (by decide) (by decide) (by decide) (by decide) (by decide) (by decide)
      (by decide) (by decide) (by decide) (by decide)).2.2
      (by decide) (by decide) (by decide) (by decide) (by decide)

/-- C7: a NotFound error from the comparison skips the candidate silently
(the loop continues with the next candidate and no notice); any other
comparison error aborts the run immediately with that error and no push
call; a status outside the four known values aborts the run with an
"unexpected status" error and no push call. -/
theorem push_compareErrors (w : PushWorld) (mi : ModuleIdentity) (rc : RepositoryCommit)
    (t1 : String) (rest : List String) (trk : String)
    (h1 : w.refType = githubRefTypeBranch)
    (h2 : w.readModule = .ok mi)
    (h3 : w.protoModule = .ok ())
    (h4 : w.track ≠ "")
    (h5 : w.defaultBranch ≠ "")
    (h6 : ¬(w.defaultBranch ≠ "main" ∧ w.track = "main" ∧ w.track = w.refName))
    (h7 : w.newRepositoryCommitService = .ok ())
    (h8 : w.getRepositoryCommitByReference = .ok rc)
    (h9 : getGithubClient w = .ok ())
    (h10 : w.sha ≠ "")
    (htrk : resolveTrack w.track w.defaultBranch w.refName = trk) :
    (w.compareCommits t1 w.sha = .error .notFound →
      compareLoop w trk (t1 :: rest) =
        (.compareCommits t1 w.sha :: (compareLoop w trk rest).1,
         (compareLoop w trk rest).2)) ∧
    (∀ m : String, filterCandidates rc.tags = t1 :: rest →
      w.compareCommits t1 w.sha = .error (.other m) →
      push w = ([.readModule, .getRepositoryCommitByReference mi.owner mi.repository trk,
        .compareCommits t1 w.sha], .error m)) ∧
    (∀ s : Nat, filterCandidates rc.tags = t1 :: rest →
      w.compareCommits t1 w.sha = .ok s →
      s ≠ compareCommitsStatusIdentical → s ≠ compareCommitsStatusBehind →
      s ≠ compareCommitsStatusDiverged → s ≠ compareCommitsStatusAhead →
      push w = ([.readModule, .getRepositoryCommitByReference mi.owner mi.repository trk,
        .compareCommits t1 w.sha], .error ("unexpected status: " ++ statusString s))) := by
  have hreach := push_reach_ok w mi rc h1 h2 h3 h4 h5 h6 h7 h8
  rw [htrk] at hreach
  have heq := afterHead_eq w mi (some rc) trk
    [.readModule, .getRepositoryCommitByReference mi.owner mi.repository trk] h9 h10
  refine ⟨fun hcmp => compareLoop_cons_notFound w trk t1 rest hcmp,
    fun m hc hcmp => ?_, fun s hc hcmp hs1 hs2 hs3 hs4 => ?_⟩
  · have hcand : candidatesOf (some rc) = t1 :: rest := hc
    rw [hreach, heq, hcand, compareLoop_cons_otherErr w trk t1 rest m hcmp]
    rfl
  · have hcand : candidatesOf (some rc) = t1 :: rest := hc
    rw [hreach, heq, hcand, compareLoop_cons_unknown w trk t1 rest s hcmp hs1 hs2 hs3 hs4]
    rfl

/-- Witness for C7: concrete runs of the silent NotFound skip (followed by
a successful push of the remaining candidate), the aborting comparison
error, and the aborting unknown status. -/
theorem push_compareErrors_witness :
    compareLoop pwCmpNotFound "non-main" [tagB, tagC] =
      ([.compareCommits tagB shaA, .compareCommits tagC shaA], .proceed) ∧
    push pwCmpBoom =
      ([.readModule, .getRepositoryCommitByReference "foo" "bar" "non-main",
        .compareCommits tagB shaA], .error "boom") ∧
    push pwCmpUnknown =
      ([.readModule, .getRepositoryCommitByReference "foo" "bar" "non-main",
        .compareCommits tagB shaA], .error "unexpected status: unknown(0)") := by
  refine ⟨?_, ?_, ?_⟩
  · have h := (push_compareErrors pwCmpNotFound
      mi0 ⟨"c0", ["some", tagB]⟩ tagB [tagC] "non-main"
      (by decide) (by decide) (by decide) (by decide) (by decide) (by decide) (by decide)
      (by decide) (by decide) (by decide) (by decide)).1
      (by decide)
    rw [h]
    rfl
  · exact (push_compareErrors pwCmpBoom
      mi0 ⟨"c0", ["some", tagB]⟩ tagB [] "non-main"
      (by decide) (by decide) (by decide) (by decide) (by decide) (by decide) (by decide)
      (by decide) (by decide) (by decide) (by decide)).2.1
      "boom" (by decide) (by decide)
  · exact (push_compareErrors pwCmpUnknown
      mi0 ⟨"c0", ["some", tagB]⟩ tagB [] "non-main"
      (by decide) (by decide) (by decide) (by decide) (by decide) (by decide) (by decide)
      (by decide) (by decide) (by decide) (by decide)).2.2
      0 (by decide) (by decide) (by decide) (by decide) (by decide) (by decide)

/-- C2: when the push call returns AlreadyExists and step 2 had fetched an
existing head, the run makes exactly one CreateRepositoryTag call — tagging
the head's commit id with the current git commit — and reports the head's
commit id (not a new one) as the commit output; when step 2 found no head,
the AlreadyExists error propagates unchanged as a failure. -/
theorem push_alreadyExists (w : PushWorld) (mi : ModuleIdentity) (trk : String) (e : RpcError)
    (h1 : w.refType = githubRefTypeBranch)
    (h2 : w.readModule = .ok mi)
    (h3 : w.protoModule = .ok ())
    (h4 : w.track ≠ "")
    (h5 : w.defaultBranch ≠ "")
    (h6 : ¬(w.defaultBranch ≠ "main" ∧ w.track = "main" ∧ w.track = w.refName))
    (h7 : w.newRepositoryCommitService = .ok ())
    (h9 : getGithubClient w = .ok ())
    (h10 : w.sha ≠ "")
    (htrk : resolveTrack w.track w.defaultBranch w.refName = trk)
    (hps : w.newPushService = .ok ())
    (hpr : w.pushResponse = .error e)
    (he : e.code = RpcCode.alreadyExists) :
    (∀ (rc : RepositoryCommit) (repo : Repository),
      w.getRepositoryCommitByReference = .ok rc →
      (compareLoop w trk (filterCandidates rc.tags)).2 = .proceed →
      w.newRepositoryService = .ok () →
      w.getRepositoryByFullName = .ok repo →
      w.newRepositoryTagService = .ok () →
      w.createRepositoryTag = .ok () →
      push w = ([.readModule, .getRepositoryCommitByReference mi.owner mi.repository trk]
          ++ (compareLoop w trk (filterCandidates rc.tags)).1
          ++ [.pushCall mi.owner mi.repository [w.sha] [trk],
              .getRepositoryByFullName (mi.owner ++ "/" ++ mi.repository),
              .createRepositoryTag repo.id w.sha rc.name,
              .setOutput "commit" rc.name,
              .setOutput "commit_url" ("https://" ++ identityString mi ++ "/tree/" ++ rc.name)],
        .ok ())) ∧
    (∀ eh : RpcError,
      w.getRepositoryCommitByReference = .error eh →
      eh.code = RpcCode.notFound →
      push w = ([.readModule, .getRepositoryCommitByReference mi.owner mi.repository trk,
          .pushCall mi.owner mi.repository [w.sha] [trk]],
        .error e.msg)) := by
  constructor
  · intro rc repo h8 hloop hrs hgr hrts hcrt
    have hreach := push_reach_ok w mi rc h1 h2 h3 h4 h5 h6 h7 h8
    rw [htrk] at hreach
    have heq := afterHead_eq w mi (some rc) trk
      [.readModule, .getRepositoryCommitByReference mi.owner mi.repository trk] h9 h10
    have hcand : candidatesOf (some rc) = filterCandidates rc.tags := rfl
    have htec := tagExistingCommit_ok w mi w.sha rc.name repo hrs hgr hrts hcrt
    have hrun := runPushService_alreadyExists_head w mi rc trk e hps hpr he (by rw [htec])
    rw [htec] at hrun
    rw [hreach, heq, hcand, hloop, hrun]
    simp [outputEffects]
  · intro eh h8 hehc
    have hreach := push_reach_noHead w mi eh h1 h2 h3 h4 h5 h6 h7 h8 hehc
    rw [htrk] at hreach
    have heq := afterHead_eq w mi none trk
      [.readModule, .getRepositoryCommitByReference mi.owner mi.repository trk] h9 h10
    have hcand : candidatesOf none = ([] : List String) := rfl
    have hrun := runPushService_alreadyExists_noHead w mi trk e hps hpr he
    rw [hreach, heq, hcand, compareLoop_nil, hrun]
    rfl

def pwAlreadyExists : PushWorld :=
  { pw0 with pushResponse := .error ⟨RpcCode.alreadyExists, "testAlreadyExistsErr"⟩ }

def pwAlreadyExistsNoHead : PushWorld :=
  { pwAlreadyExists with getRepositoryCommitByReference := .error ⟨RpcCode.notFound, "nf"⟩ }

/-- Witness for C2: the tagged-existing run (one CreateRepositoryTag call,
commit output `c0` from the head) and the propagation of AlreadyExists when
the track had no head. -/
theorem push_alreadyExists_witness :
    push pwAlreadyExists =
      ([.readModule, .getRepositoryCommitByReference "foo" "bar" "non-main",
        .compareCommits tagB shaA,
        .pushCall "foo" "bar" [shaA] ["non-main"],
        .getRepositoryByFullName "foo/bar",
        .createRepositoryTag "repo-id" shaA "c0",
        .setOutput "commit" "c0",
        .setOutput "commit_url" "https://buf.build/foo/bar/tree/c0"],
       .ok ()) ∧
    push pwAlreadyExistsNoHead =
      ([.readModule, .getRepositoryCommitByReference "foo" "bar" "non-main",
        .pushCall "foo" "bar" [shaA] ["non-main"]],
       .error "testAlreadyExistsErr") := by
  constructor
  · have h := (push_alreadyExists pwAlreadyExists mi0 "non-main"
      ⟨RpcCode.alreadyExists, "testAlreadyExistsErr"⟩
      (by decide) (by decide) (by decide) (by decide) (by decide) (by decide) (by decide)
      (by decide) (by decide) (by decide) (by decide) (by decide) (by decide)).1
      ⟨"c0", ["some", tagB]⟩ ⟨"repo-id"⟩
      (by decide) (by decide) (by decide) (by decide) (by decide) (by decide)
    rw [h]
    rfl
  · exact (push_alreadyExists pwAlreadyExistsNoHead mi0 "non-main"
      ⟨RpcCode.alreadyExists, "testAlreadyExistsErr"⟩
      (by decide) (by decide) (by decide) (by decide) (by decide) (by decide) (by decide)
      (by decide) (by decide) (by decide) (by decide) (by decide) (by decide)).2
      ⟨RpcCode.notFound, "nf"⟩ (by decide) (by decide)

/-- C8: rerunning the reconciliation with identical inputs against a
registry that already holds the pushed content ends successfully in one of
the two converging outcomes and never errors.  A registry that holds the
content presents itself in one of two ways: the head's first candidate tag
is the current git commit and the comparison of the commit with itself is
Identical — the run ends in skipped-identical with no push call; or the
comparisons fall through and the push call answers AlreadyExists with the
head present — the run ends in tagged-existing, reporting the head's commit
id.  Both runs are plain function evaluations, hence deterministic. -/
theorem push_idempotent (w : PushWorld) (mi : ModuleIdentity) (rc : RepositoryCommit)
    (trk : String)
    (h1 : w.refType = githubRefTypeBranch)
    (h2 : w.readModule = .ok mi)
    (h3 : w.protoModule = .ok ())
    (h4 : w.track ≠ "")
    (h5 : w.defaultBranch ≠ "")
    (h6 : ¬(w.defaultBranch ≠ "main" ∧ w.track = "main" ∧ w.track = w.refName))
    (h7 : w.newRepositoryCommitService = .ok ())
    (h8 : w.getRepositoryCommitByReference = .ok rc)
    (h9 : getGithubClient w = .ok ())
    (h10 : w.sha ≠ "")
    (htrk : resolveTrack w.track w.defaultBranch w.refName = trk) :
    (∀ rest, filterCandidates rc.tags = w.sha :: rest →
      w.compareCommits w.sha w.sha = .ok compareCommitsStatusIdentical →
      push w = ([.readModule, .getRepositoryCommitByReference mi.owner mi.repository trk,
          .compareCommits w.sha w.sha,
          .notice ("Skipping because the current git commit is already the head of track " ++ trk)],
        .ok ())) ∧
    (∀ (e : RpcError) (repo : Repository),
      (compareLoop w trk (filterCandidates rc.tags)).2 = .proceed →
      w.newPushService = .ok () →
      w.pushResponse = .error e →
      e.code = RpcCode.alreadyExists →
      w.newRepositoryService = .ok () →
      w.getRepositoryByFullName = .ok repo →
      w.newRepositoryTagService = .ok () →
      w.createRepositoryTag = .ok () →
      (push w).2 = .ok () ∧ Effect.setOutput "commit" rc.name ∈ (push w).1) := by
  have hreach := push_reach_ok w mi rc h1 h2 h3 h4 h5 h6 h7 h8
  rw [htrk] at hreach
  have heq := afterHead_eq w mi (some rc) trk
    [.readModule, .getRepositoryCommitByReference mi.owner mi.repository trk] h9 h10
  have hcand : candidatesOf (some rc) = filterCandidates rc.tags := rfl
  constructor
  · intro rest hc hcmp
    rw [hreach, heq, hcand, hc, compareLoop_cons_identical w trk w.sha rest hcmp]
    rfl
  · intro e repo hloop hps hpr he hrs hgr hrts hcrt
    have htec := tagExistingCommit_ok w mi w.sha rc.name repo hrs hgr hrts hcrt
    have hrun := runPushService_alreadyExists_head w mi rc trk e hps hpr he (by rw [htec])
    rw [htec] at hrun
    rw [hreach, heq, hcand, hloop, hrun]
    constructor
    · rfl
    · simp [outputEffects]

/-- Witness for C8: the two converging reruns on concrete worlds — the
head already tagged with the current commit (skipped-identical), and the
deduplicated push (tagged-existing with commit output `c0`). -/
theorem push_idempotent_witness :
    push { pw0 with
        getRepositoryCommitByReference := .ok ⟨"c0", [shaA]⟩,
        compareCommits := fun _ _ => .ok compareCommitsStatusIdentical } =
      ([.readModule, .getRepositoryCommitByReference "foo" "bar" "non-main",
        .compareCommits shaA shaA,
        .notice "Skipping because the current git commit is already the head of track non-main"],
       .ok ()) ∧
    (push pwAlreadyExists).2 = .ok () ∧
    Effect.setOutput "commit" "c0" ∈ (push pwAlreadyExists).1 := by
  refine ⟨?_, ?_⟩
  · exact (push_idempotent { pw0 with
        getRepositoryCommitByReference := .ok ⟨"c0", [shaA]⟩,
        compareCommits := fun _ _ => .ok compareCommitsStatusIdentical }
      mi0 ⟨"c0", [shaA]⟩ "non-main"
      (by decide) (by decide) (by decide) (by decide) (by decide) (by decide) (by decide)
      (by decide) (by decide) (by decide) (by decide)).1
      [] (by decide) (by decide)
  · exact (push_idempotent pwAlreadyExists mi0 ⟨"c0", ["some", tagB]⟩ "non-main"
      (by decide) (by decide) (by decide) (by decide) (by decide) (by decide) (by decide)
      (by decide) (by decide) (by decide) (by decide)).2
      ⟨RpcCode.alreadyExists, "testAlreadyExistsErr"⟩ ⟨"repo-id"⟩
      (by decide) (by decide) (by decide) (by decide) (by decide) (by decide) (by decide)
      (by decide)

def pwFailedPrecondition : PushWorld :=
  { pw0 with getRepositoryCommitByReference := .error ⟨RpcCode.failedPrecondition, "fp"⟩ }

def pwHeadNotFound : PushWorld :=
  { pw0 with getRepositoryCommitByReference := .error ⟨RpcCode.notFound, "nf"⟩ }

/-- Counterexample for C6: in push.go a FailedPrecondition error from the
track head fetch aborts the run with that very error, while the same world
with a NotFound error continues and pushes successfully — so push does not
treat FailedPrecondition as "track has no history". -/
theorem getTrackHead_failedPrecondition_cex :
    (push pwFailedPrecondition).2 = .error "fp" ∧
    (push pwHeadNotFound).2 = .ok () := by
  decide

/-- C6 amended: in push.go only a NotFound error from the track head fetch
is treated as "track has no history" (the run continues with an empty
candidate set straight to the push call); an error with any other code —
FailedPrecondition included — aborts the push and propagates.  The other
version of push in this repository (bufpushaction.go lines 579-593) instead
absorbs both NotFound and FailedPrecondition and propagates everything
else. -/
theorem getTrackHead_errors (w : PushWorld) (mi : ModuleIdentity) (e : RpcError) (trk : String)
    (h1 : w.refType = githubRefTypeBranch)
    (h2 : w.readModule = .ok mi)
    (h3 : w.protoModule = .ok ())
    (h4 : w.track ≠ "")
    (h5 : w.defaultBranch ≠ "")
    (h6 : ¬(w.defaultBranch ≠ "main" ∧ w.track = "main" ∧ w.track = w.refName))
    (h7 : w.newRepositoryCommitService = .ok ())
    (h8 : w.getRepositoryCommitByReference = .error e)
    (h9 : getGithubClient w = .ok ())
    (h10 : w.sha ≠ "")
    (htrk : resolveTrack w.track w.defaultBranch w.refName = trk) :
    (e.code = RpcCode.notFound →
      push w = ([.readModule, .getRepositoryCommitByReference mi.owner mi.repository trk]
          ++ (runPushService w mi none trk).1,
        (runPushService w mi none trk).2)) ∧
    (e.code ≠ RpcCode.notFound →
      push w = ([.readModule, .getRepositoryCommitByReference mi.owner mi.repository trk],
        .error e.msg)) ∧
    (∀ m : String,
      handleGetRepositoryCommitError ⟨RpcCode.notFound, m⟩ = .ok () ∧
      handleGetRepositoryCommitError ⟨RpcCode.failedPrecondition, m⟩ = .ok ()) ∧
    (∀ er : RpcError, er.code ≠ RpcCode.notFound → er.code ≠ RpcCode.failedPrecondition →
      handleGetRepositoryCommitError er = .error er.msg) := by
  refine ⟨fun hc => ?_, fun hc => ?_, fun m => ⟨rfl, rfl⟩, fun er her1 her2 => ?_⟩
  · have hreach := push_reach_noHead w mi e h1 h2 h3 h4 h5 h6 h7 h8 hc
    rw [htrk] at hreach
    have heq := afterHead_eq w mi none trk
      [.readModule, .getRepositoryCommitByReference mi.owner mi.repository trk] h9 h10
    have hcand : candidatesOf none = ([] : List String) := rfl
    rw [hreach, heq, hcand, compareLoop_nil]
    rfl
  · have hreach := push_reach_headErr w mi e h1 h2 h3 h4 h5 h6 h7 h8 hc
    rw [htrk] at hreach
    exact hreach
  · rcases her : er with ⟨code, msg⟩
    cases code with
    | notFound => exact absurd rfl (her ▸ her1)
    | failedPrecondition => exact absurd rfl (her ▸ her2)
    | alreadyExists => rfl
    | unknown => rfl

/-- Witness for C6 (amended): the NotFound world continues straight to a
successful push with no comparisons; a world whose head fetch fails with an
unrecognized code aborts with that error; and the two handler evaluations
of the bufpushaction.go variant. -/
theorem getTrackHead_errors_witness :
    push pwHeadNotFound =
      ([.readModule, .getRepositoryCommitByReference "foo" "bar" "non-main",
        .pushCall "foo" "bar" [shaA] ["non-main"],
        .setOutput "commit" "c1",
        .setOutput "commit_url" "https://buf.build/foo/bar/tree/c1"],
       .ok ()) ∧
    push { pw0 with getRepositoryCommitByReference := .error ⟨RpcCode.unknown, "boom"⟩ } =
      ([.readModule, .getRepositoryCommitByReference "foo" "bar" "non-main"], .error "boom") ∧
    handleGetRepositoryCommitError ⟨RpcCode.failedPrecondition, "fp"⟩ = .ok () ∧
    handleGetRepositoryCommitError ⟨RpcCode.unknown, "boom"⟩ = .error "boom" := by
  refine ⟨?_, ?_, ?_, ?_⟩
  · have h := (getTrackHead_errors pwHeadNotFound mi0 ⟨RpcCode.notFound, "nf"⟩ "non-main"
      (by decide) (by decide) (by decide) (by decide) (by decide) (by decide) (by decide)
      (by decide) (by decide) (by decide) (by decide)).1 (by decide)
    rw [h]
    rfl
  · exact (getTrackHead_errors
      { pw0 with getRepositoryCommitByReference := .error ⟨RpcCode.unknown, "boom"⟩ }
      mi0 ⟨RpcCode.unknown, "boom"⟩ "non-main"
      (by decide) (by decide) (by decide) (by decide) (by decide) (by decide) (by decide)
      (by decide) (by decide) (by decide) (by decide)).2.1 (by decide)
  · exact ((getTrackHead_errors pwHeadNotFound mi0 ⟨RpcCode.notFound, "nf"⟩ "non-main"
      (by decide) (by decide) (by decide) (by decide) (by decide) (by decide) (by decide)
      (by decide) (by decide) (by decide) (by decide)).2.2.1 "fp").2
  · exact (getTrackHead_errors pwHeadNotFound mi0 ⟨RpcCode.notFound, "nf"⟩ "non-main"
      (by decide) (by decide) (by decide) (by decide) (by decide) (by decide) (by decide)
      (by decide) (by decide) (by decide) (by decide)).2.2.2
      ⟨RpcCode.unknown, "boom"⟩ (by decide) (by decide)

def pwCrossBranch : PushWorld :=
  { pw0 with
      track := "main", defaultBranch := "develop", refName := "feature",
      getRepositoryCommitByReference := .error ⟨RpcCode.notFound, "nf"⟩ }

/-- Counterexample for C4: a push with requested track "main", default
branch "develop" and ref name "feature" passes validation, proceeds, and
performs a push onto the main track even though its ref name does not match
the configured default branch. -/
theorem crossBranchMain_cex :
    (push pwCrossBranch).2 = .ok () ∧
    Effect.pushCall "foo" "bar" [shaA] ["main"] ∈ (push pwCrossBranch).1 ∧
    pwCrossBranch.refName ≠ pwCrossBranch.defaultBranch := by
  decide

/-- C4 amended: the cross-branch-main validation rejects exactly a push
whose requested track is "main" while the ref name equals it and the
default branch is something else; and an effective track of "main" only
guarantees that the requested track was literally "main", or that the ref
name equals the default branch, or that the ref name is empty — a
main-track push from a ref that differs from the default branch is
otherwise possible. -/
theorem crossBranchMain_amended (w : PushWorld) (mi : ModuleIdentity)
    (h1 : w.refType = githubRefTypeBranch)
    (h2 : w.readModule = .ok mi)
    (h3 : w.protoModule = .ok ())
    (h5 : w.defaultBranch ≠ "") :
    (resolveTrack w.track w.defaultBranch w.refName = "main" →
      w.track = "main" ∨ w.refName = w.defaultBranch ∨ w.refName = "") ∧
    (w.track = "main" → w.defaultBranch ≠ "main" → w.refName = "main" →
      push w = ([.readModule], .error "cannot push to main track from a non-default branch")) := by
  constructor
  · intro hres
    unfold resolveTrack at hres
    by_cases hcond : w.track = w.defaultBranch ∧ (w.track = w.refName ∨ w.refName = "")
    · rcases hcond with ⟨hd, hr | hr⟩
      · exact Or.inr (Or.inl (hr.symm.trans hd))
      · exact Or.inr (Or.inr hr)
    · rw [if_neg hcond] at hres
      exact Or.inl hres
  · intro ht hd hr
    unfold push
    rw [if_neg (by rw [h1]; simp), h2, h3]
    simp only
    rw [if_neg (show ¬(w.track = "") by rw [ht]; decide), if_neg h5,
      if_pos ⟨hd, ht, ht.trans hr.symm⟩]

/-- Witness for C4 (amended): a remapped main-track push whose ref equals
the default branch, and the rejected cross-branch push. -/
theorem crossBranchMain_amended_witness :
    (({ pw0 with track := "develop", defaultBranch := "develop", refName := "develop" } :
        PushWorld).track = "main" ∨
      ({ pw0 with track := "develop", defaultBranch := "develop", refName := "develop" } :
        PushWorld).refName =
        ({ pw0 with track := "develop", defaultBranch := "develop", refName := "develop" } :
          PushWorld).defaultBranch ∨
      ({ pw0 with track := "develop", defaultBranch := "develop", refName := "develop" } :
        PushWorld).refName = "") ∧
    push { pw0 with track := "main", defaultBranch := "develop", refName := "main" } =
      ([.readModule], .error "cannot push to main track from a non-default branch") := by
  constructor
  · exact (crossBranchMain_amended
      { pw0 with track := "develop", defaultBranch := "develop", refName := "develop" }
      mi0 (by decide) (by decide) (by decide) (by decide)).1 (by decide)
  · exact (crossBranchMain_amended
      { pw0 with track := "main", defaultBranch := "develop", refName := "main" }
      mi0 (by decide) (by decide) (by decide) (by decide)).2 (by decide) (by decide) (by decide)

lemma tagExistingCommit_no_compare (w : PushWorld) (mi : ModuleIdentity) (tn rf b h : String) :
    Effect.compareCommits b h ∉ (tagExistingCommit w mi tn rf).1 := by
  intro hmem
  unfold tagExistingCommit at hmem
  repeat' split at hmem
  all_goals simp at hmem

lemma runPushService_no_compare (w : PushWorld) (mi : ModuleIdentity)
    (head : Option RepositoryCommit) (trk b h : String) :
    Effect.compareCommits b h ∉ (runPushService w mi head trk).1 := by
  intro hmem
  unfold runPushService at hmem
  rcases hps : w.newPushService with e | u
  · rw [hps] at hmem
    simp at hmem
  · rw [hps] at hmem
    rcases hpr : w.pushResponse with e | pin
    · rw [hpr] at hmem
      by_cases hc : e.code ≠ RpcCode.alreadyExists
      · simp [hc] at hmem
      · rcases head with _ | rc
        · simp [hc] at hmem
        · rcases htec : (tagExistingCommit w mi w.sha rc.name).2 with em | uu
          · simp [hc, htec] at hmem
            exact tagExistingCommit_no_compare _ _ _ _ _ _ hmem
          · simp [hc, htec, outputEffects] at hmem
            exact tagExistingCommit_no_compare _ _ _ _ _ _ hmem
    · rw [hpr] at hmem
      simp [outputEffects] at hmem

lemma compareLoop_base_mem (w : PushWorld) (trk : String) (cands : List String) (b h : String)
    (hmem : Effect.compareCommits b h ∈ (compareLoop w trk cands).1) : b ∈ cands := by
  induction cands with
  | nil => simp [compareLoop] at hmem
  | cons t rest ih =>
    rcases hc : w.compareCommits t w.sha with e | s
    · cases e with
      | notFound =>
        rw [compareLoop_cons_notFound w trk t rest hc] at hmem
        simp only [List.mem_cons] at hmem
        rcases hmem with hb | hm
        · simp at hb
          rw [hb.1]
          exact List.mem_cons_self t rest
        · exact List.mem_cons_of_mem t (ih hm)
      | other m =>
        rw [compareLoop_cons_otherErr w trk t rest m hc] at hmem
        simp at hmem
        rw [hmem.1]
        exact List.mem_cons_self t rest
    · by_cases hs1 : s = compareCommitsStatusIdentical
      · rw [hs1] at hc
        rw [compareLoop_cons_identical w trk t rest hc] at hmem
        simp at hmem
        rw [hmem.1]
        exact List.mem_cons_self t rest
      · by_cases hs2 : s = compareCommitsStatusBehind
        · rw [hs2] at hc
          rw [compareLoop_cons_behind w trk t rest hc] at hmem
          simp at hmem
          rw [hmem.1]
          exact List.mem_cons_self t rest
        · by_cases hs3 : s = compareCommitsStatusDiverged
          · rw [hs3] at hc
            rw [compareLoop_cons_diverged w trk t rest hc] at hmem
            simp only [List.mem_cons] at hmem
            rcases hmem with hb | hb | hm
            · simp at hb
              rw [hb.1]
              exact List.mem_cons_self t rest
            · simp at hb
            · exact List.mem_cons_of_mem t (ih hm)
          · by_cases hs4 : s = compareCommitsStatusAhead
            · rw [hs4] at hc
              rw [compareLoop_cons_ahead w trk t rest hc] at hmem
              simp only [List.mem_cons] at hmem
              rcases hmem with hb | hm
              · simp at hb
                rw [hb.1]
                exact List.mem_cons_self t rest
              · exact List.mem_cons_of_mem t (ih hm)
            · rw [compareLoop_cons_unknown w trk t rest s hc hs1 hs2 hs3 hs4] at hmem
              simp at hmem
              rw [hmem.1]
              exact List.mem_cons_self t rest

lemma afterHead_compare_mem (w : PushWorld) (mi : ModuleIdentity)
    (head : Option RepositoryCommit) (trk o r rf b h : String)
    (hmem : Effect.compareCommits b h ∈
      (afterHead w mi head trk [.readModule, .getRepositoryCommitByReference o r rf]).1) :
    b ∈ candidatesOf head := by
  rcases hg : getGithubClient w with eg | ug
  · have ha : afterHead w mi head trk [.readModule, .getRepositoryCommitByReference o r rf]
        = ([.readModule, .getRepositoryCommitByReference o r rf], .error eg) := by
      unfold afterHead
      rw [hg]
    rw [ha] at hmem
    simp at hmem
  · cases ug
    by_cases hsha : w.sha = ""
    · have ha : afterHead w mi head trk [.readModule, .getRepositoryCommitByReference o r rf]
          = ([.readModule, .getRepositoryCommitByReference o r rf],
             .error "current git commit not found in environment") := by
        unfold afterHead
        rw [hg]
        simp only
        rw [if_pos hsha]
      rw [ha] at hmem
      simp at hmem
    · have heq := afterHead_eq w mi head trk
        [.readModule, .getRepositoryCommitByReference o r rf] hg hsha
      rw [heq] at hmem
      rcases hl : (compareLoop w trk (candidatesOf head)).2 with _ | _ | m
      · rw [hl] at hmem
        simp at hmem
        rcases hmem with hm | hm
        · exact compareLoop_base_mem w trk _ b h hm
        · exact absurd hm (runPushService_no_compare w mi head trk b h)
      · rw [hl] at hmem
        simp at hmem
        exact compareLoop_base_mem w trk _ b h hmem
      · rw [hl] at hmem
        simp at hmem
        exact compareLoop_base_mem w trk _ b h hmem

def pwUpperTag : PushWorld :=
  { pw0 with getRepositoryCommitByReference := .ok ⟨"c0", [tagUpper]⟩ }

/-- Counterexample for C5: a head tag of forty uppercase hex characters
does not match the spec's lowercase-only shape, yet the run invokes the
comparator with it as base — Go's `hex.DecodeString` also accepts uppercase
digits. -/
theorem tagFilter_cex :
    specLowerHex40 tagUpper = false ∧
    Effect.compareCommits tagUpper shaA ∈ (push pwUpperTag).1 := by
  decide

/-- C5 amended: every tag the comparator is invoked with as base is a
candidate tag — exactly forty characters, each a hex digit of either case
(the shape accepted by `len(tag) == 40` plus `hex.DecodeString`); tags of
any other shape never reach the comparator. -/
theorem tagFilter_amended (w : PushWorld) (b h : String)
    (hmem : Effect.compareCommits b h ∈ (push w).1) :
    isCandidateTag b = true := by
  unfold push at hmem
  split at hmem
  · simp at hmem
  · split at hmem
    · simp at hmem
    · split at hmem
      · simp at hmem
      · split at hmem
        · simp at hmem
        · split at hmem
          · simp at hmem
          · split at hmem
            · simp at hmem
            · split at hmem
              · simp at hmem
              · split at hmem
                · split at hmem
                  · simp at hmem
                  · have hb := afterHead_compare_mem w _ none _ _ _ _ b h hmem
                    simp [candidatesOf] at hb
                · have hb := afterHead_compare_mem w _ (some _) _ _ _ _ b h hmem
                  exact (List.mem_filter.mp hb).2

/-- Witness for C5 (amended): in the happy-path world the comparator is
invoked with the lowercase candidate tag, and that tag indeed has the
40-hex candidate shape. -/
theorem tagFilter_amended_witness : isCandidateTag tagB = true :=
  tagFilter_amended pw0 tagB shaA (by decide)

end BufPushAction
